import Mathlib

open scoped List

/-!
# Verification of the round-robin kernel simulation (src/kernel.rs)

Shallow embedding of the Rust kernel simulation: the `Process` data model,
the `Kernel` state, the round-robin `schedule`, the kernel-call dispatcher
`handle_kernel_call`, the `tick` stepping function and the hardcoded
task-logic collaborator `simulate_task_logic`.

Modelling decisions:
* Rust `u32`/`u8` counters (`id`, `program_counter`, `priority`, `ticks`,
  `next_pid`) are modelled as `Nat`; the code only ever increments them by 1
  and the spec treats the core as unbounded, so wrap-around is out of scope.
* `VecDeque<Process>` is a `List Process` whose head is the queue front:
  `push_back` appends, `pop_front` takes the head.
* `println!` side effects are modelled as structured `TraceEvent` values
  returned next to the new state, mirroring the spec's trace-sink interface.
* `Option::take()` removes the running task and hands back the owned value;
  the dispatcher arms that mutate the detached task's state before dropping
  it (`Exit`, `Block`) return that final record in a `dropped` field, so the
  state written into the dropped record is observable in the model.
* `tick` calls `self.simulate_task_logic`; since the spec names this an
  external collaborator, the embedding is parameterised as `tickWith logic`
  with `tick = tickWith simulate_task_logic` (definitional).
-/

/-- States of a task managed by the kernel (enum `ProcessState`). -/
inductive ProcessState where
  | Ready
  | Running
  | Blocked
  | Exited
deriving DecidableEq, Repr

/-- A task record (struct `Process`). -/
structure Process where
  id : Nat
  name : String
  state : ProcessState
  program_counter : Nat
  priority : Nat
deriving DecidableEq, Repr

/-- `Process::new`: a fresh task is Ready with program counter 0. -/
def Process.new (id : Nat) (name : String) (priority : Nat) : Process :=
  { id := id
    name := name
    state := ProcessState.Ready
    program_counter := 0
    priority := priority }

/-- System calls a running process can make (enum `KernelCall`). -/
inductive KernelCall where
  | Yield
  | Print (msg : String)
  | Exit
  | Block
deriving DecidableEq, Repr

/-- Structured counterpart of the `println!` trace output. -/
inductive TraceEvent where
  | spawning (task : Process)
  | requeue (id : Nat)
  | dispatching (task : Process)
  | idling
  | tickBanner (n : Nat)
  | cpuRunning (id : Nat) (pc : Nat)
  | shutdown
  | yieldRequested
  | exited (id : Nat)
  | printOut (id : Nat) (msg : String)
  | blocked (id : Nat)
deriving DecidableEq, Repr

/-- The central kernel state (struct `Kernel`). -/
structure Kernel where
  next_pid : Nat
  ready_queue : List Process
  running_task : Option Process
  ticks : Nat
deriving DecidableEq, Repr

/-- `Kernel::new`. -/
def Kernel.new : Kernel :=
  { next_pid := 1
    ready_queue := []
    running_task := none
    ticks := 0 }

/-- `Kernel::spawn_task`: create a fresh task, push it at the back of the
ready queue, bump the pid counter. -/
def Kernel.spawn_task (k : Kernel) (name : String) (priority : Nat) :
    Kernel × List TraceEvent :=
  let task := Process.new k.next_pid name priority
  ({ k with
      ready_queue := k.ready_queue ++ [task]
      next_pid := k.next_pid + 1 },
   [TraceEvent.spawning task])

/-- `Kernel::schedule`: take the running task; re-queue it (state set back
to Ready) only when its state is still Running; then pop the front of the
ready queue, mark it Running and place it in the slot, idling when the
queue is empty. -/
def Kernel.schedule (k : Kernel) : Kernel × List TraceEvent :=
  let step1 : Kernel × List TraceEvent :=
    match k.running_task with
    | some current_task =>
      if current_task.state = ProcessState.Running then
        let current_task := { current_task with state := ProcessState.Ready }
        ({ k with
            running_task := none
            ready_queue := k.ready_queue ++ [current_task] },
         [TraceEvent.requeue current_task.id])
      else
        ({ k with running_task := none }, [])
    | none => (k, [])
  let k1 := step1.1
  match k1.ready_queue with
  | next_task :: rest =>
    let next_task := { next_task with state := ProcessState.Running }
    ({ k1 with
        ready_queue := rest
        running_task := some next_task },
     step1.2 ++ [TraceEvent.dispatching next_task])
  | [] =>
    (k1, step1.2 ++ [TraceEvent.idling])

/-- Result of dispatching one kernel call: the new kernel state, the trace
events emitted, and the task record detached from the slot and dropped by
the `Exit`/`Block` arms (with the state those arms wrote into it). -/
structure CallResult where
  kernel : Kernel
  events : List TraceEvent
  dropped : Option Process
deriving DecidableEq, Repr

/-- `Kernel::handle_kernel_call`. -/
def Kernel.handle_kernel_call (k : Kernel) (call : KernelCall) : CallResult :=
  match call with
  | KernelCall.Yield =>
    let s := k.schedule
    { kernel := s.1
      events := TraceEvent.yieldRequested :: s.2
      dropped := none }
  | KernelCall.Exit =>
    match k.running_task with
    | some task =>
      let task := { task with state := ProcessState.Exited }
      { kernel := { k with running_task := none }
        events := [TraceEvent.exited task.id]
        dropped := some task }
    | none =>
      { kernel := k, events := [], dropped := none }
  | KernelCall.Print msg =>
    match k.running_task with
    | some task =>
      { kernel := k, events := [TraceEvent.printOut task.id msg], dropped := none }
    | none =>
      { kernel := k, events := [], dropped := none }
  | KernelCall.Block =>
    let step1 : Kernel × List TraceEvent × Option Process :=
      match k.running_task with
      | some task =>
        let task := { task with state := ProcessState.Blocked }
        ({ k with running_task := none },
         [TraceEvent.blocked task.id], some task)
      | none => (k, [], none)
    let s := step1.1.schedule
    { kernel := s.1
      events := step1.2.1 ++ s.2
      dropped := step1.2.2 }

/-- `Kernel::simulate_task_logic`: the hardcoded per-task scripts. -/
def Kernel.simulate_task_logic (task_id : Nat) (pc : Nat) : Option KernelCall :=
  match task_id with
  | 1 =>
    match pc with
    | 5 => some (KernelCall.Print s!"Task {task_id} is halfway!")
    | 10 => some KernelCall.Exit
    | _ => none
  | 2 =>
    match pc with
    | 3 => some KernelCall.Yield
    | 8 => some (KernelCall.Print s!"Task {task_id} is doing work.")
    | 12 => some KernelCall.Exit
    | _ => none
  | 3 =>
    match pc with
    | 4 => some KernelCall.Block
    | _ => none
  | _ => none

/-- Result of one `Kernel::tick`: new state, trace, the task dropped by a
dispatched `Exit`/`Block` call (if any), and the returned `bool`
(`true` = continue, `false` = no more work). -/
structure TickResult where
  kernel : Kernel
  events : List TraceEvent
  dropped : Option Process
  more : Bool
deriving DecidableEq, Repr

/-- `Kernel::tick`, parameterised by the task-logic collaborator: bump the
tick counter, preempt every third tick, then run the current task one step
(incrementing its program counter and dispatching any kernel call it
makes); with an empty slot, report no-more-work when the queue is empty
too, otherwise schedule immediately. -/
def Kernel.tickWith (logic : Nat → Nat → Option KernelCall) (k : Kernel) :
    TickResult :=
  let k := { k with ticks := k.ticks + 1 }
  let ev0 := [TraceEvent.tickBanner k.ticks]
  let step2 : Kernel × List TraceEvent :=
    if k.ticks % 3 = 0 then
      let s := k.schedule
      (s.1, ev0 ++ s.2)
    else
      (k, ev0)
  let k := step2.1
  match k.running_task with
  | some task =>
    let task := { task with program_counter := task.program_counter + 1 }
    let k := { k with running_task := some task }
    let ev2 := step2.2 ++ [TraceEvent.cpuRunning task.id task.program_counter]
    match logic task.id task.program_counter with
    | some call =>
      let r := k.handle_kernel_call call
      { kernel := r.kernel, events := ev2 ++ r.events
        dropped := r.dropped, more := true }
    | none =>
      { kernel := k, events := ev2, dropped := none, more := true }
  | none =>
    if k.ready_queue.isEmpty then
      { kernel := k, events := step2.2 ++ [TraceEvent.shutdown]
        dropped := none, more := false }
    else
      let s := k.schedule
      { kernel := s.1, events := step2.2 ++ s.2
        dropped := none, more := true }

/-- `Kernel::tick` as written in the source, with its own hardcoded
collaborator. -/
def Kernel.tick (k : Kernel) : TickResult :=
  Kernel.tickWith Kernel.simulate_task_logic k

/-! ## Reachability and invariants -/

/-- The live tasks of a kernel state: the slot occupant (if any) followed by
the ready queue. -/
def Kernel.liveTasks (k : Kernel) : List Process :=
  (match k.running_task with
   | some t => [t]
   | none => []) ++ k.ready_queue

/-- The ids of the live tasks. -/
def Kernel.liveIds (k : Kernel) : List Nat :=
  k.liveTasks.map Process.id

/-- One public operation of the kernel: spawning, scheduling, dispatching a
kernel call, or one tick (with an arbitrary task-logic collaborator). -/
inductive Kernel.Step : Kernel → Kernel → Prop where
  | spawn (name : String) (priority : Nat) :
      Kernel.Step k (k.spawn_task name priority).1
  | sched :
      Kernel.Step k k.schedule.1
  | call (c : KernelCall) :
      Kernel.Step k (k.handle_kernel_call c).kernel
  | tick (logic : Nat → Nat → Option KernelCall) :
      Kernel.Step k (Kernel.tickWith logic k).kernel

/-- Kernel states reachable from a fresh kernel by any sequence of
operations. -/
inductive Kernel.Reachable : Kernel → Prop where
  | init : Kernel.Reachable Kernel.new
  | step {k k' : Kernel} :
      Kernel.Reachable k → Kernel.Step k k' → Kernel.Reachable k'

/-- State discipline: the slot occupant is Running, queue members are
Ready. -/
def Kernel.StateInv (k : Kernel) : Prop :=
  (∀ t, k.running_task = some t → t.state = ProcessState.Running) ∧
  (∀ t ∈ k.ready_queue, t.state = ProcessState.Ready)

/-- Id discipline: live ids are pairwise distinct and below the pid
counter. -/
def Kernel.IdInv (k : Kernel) : Prop :=
  k.liveIds.Nodup ∧ ∀ i ∈ k.liveIds, i < k.next_pid

/-- The combined inductive invariant. -/
def Kernel.Inv (k : Kernel) : Prop :=
  k.StateInv ∧ k.IdInv

/-! ## Claim-facing spec definitions -/

/-- Transcription of claim C1's wording of `schedule`: first the requeue
check on the current slot (requeue only a Running occupant, to the tail,
with state set to Ready), then pop the head of the ready queue into the
slot as Running, leaving the slot empty when the queue is empty. -/
def Kernel.scheduleClaim (k : Kernel) : Kernel :=
  let requeued : Kernel :=
    match k.running_task with
    | some t =>
      if t.state = ProcessState.Running then
        { k with
            running_task := none
            ready_queue := k.ready_queue ++ [{ t with state := ProcessState.Ready }] }
      else
        { k with running_task := none }
    | none => k
  match requeued.ready_queue with
  | head :: rest =>
    { requeued with
        running_task := some { head with state := ProcessState.Running }
        ready_queue := rest }
  | [] =>
    { requeued with running_task := none }

/-- The kernel state after `tick`'s first two steps (counter increment and
preemption check), before any task execution of that tick. -/
def Kernel.tickPreempted (k : Kernel) : Kernel :=
  if (k.ticks + 1) % 3 = 0 then
    ({ k with ticks := k.ticks + 1 } : Kernel).schedule.1
  else
    { k with ticks := k.ticks + 1 }

/-! ## Basic frame lemmas -/

theorem Kernel.schedule_next_pid (k : Kernel) :
    k.schedule.1.next_pid = k.next_pid := by
  obtain ⟨pid, q, r, tk⟩ := k
  unfold Kernel.schedule
  cases r with
  | none => cases q <;> simp
  | some t =>
    by_cases hs : t.state = ProcessState.Running <;>
      cases q <;> simp [hs]

theorem Kernel.schedule_ticks (k : Kernel) :
    k.schedule.1.ticks = k.ticks := by
  obtain ⟨pid, q, r, tk⟩ := k
  unfold Kernel.schedule
  cases r with
  | none => cases q <;> simp
  | some t =>
    by_cases hs : t.state = ProcessState.Running <;>
      cases q <;> simp [hs]

/-! ## C1 -/

/-- C1: `schedule` behaves exactly as the claim describes — requeue the
slot occupant at the tail only when it is still Running (setting it Ready),
then dispatch the head of the ready queue as Running into the slot, the
slot staying empty when the queue is empty; as a total function it always
succeeds. `scheduleClaim` is the claim's wording, `schedule` the code's. -/
theorem schedule_matches_claim (k : Kernel) :
    k.schedule.1 = k.scheduleClaim := by
  obtain ⟨pid, q, r, tk⟩ := k
  unfold Kernel.schedule Kernel.scheduleClaim
  cases r with
  | none => cases q <;> simp
  | some t =>
    by_cases hs : t.state = ProcessState.Running <;>
      cases q <;> simp [hs]

/-! ## C9 -/

/-- C9: `schedule` on an empty system (no running task, empty queue)
returns the state unchanged — tick counter, pid counter, slot and queue
included — and emits exactly one idle trace event; being a total Lean
function it cannot panic. -/
theorem schedule_empty_system (k : Kernel)
    (h1 : k.running_task = none) (h2 : k.ready_queue = []) :
    k.schedule = (k, [TraceEvent.idling]) := by
  unfold Kernel.schedule
  simp [h1, h2]

/-- Witness for C9 at the fresh kernel. -/
theorem schedule_empty_system_witness :
    Kernel.new.running_task = none ∧ Kernel.new.ready_queue = [] ∧
      Kernel.new.schedule = (Kernel.new, [TraceEvent.idling]) :=
  ⟨rfl, rfl, schedule_empty_system Kernel.new rfl rfl⟩

/-! ## C10 -/

/-- C10: with an empty ready queue and a Running occupant in the slot,
`schedule` is the identity on the kernel state (same task record — same id,
program counter and Running state — back in the slot, queue still empty),
and a `Yield` kernel call leaves the state likewise unchanged. -/
theorem schedule_sole_runner_fixpoint (k : Kernel) (t : Process)
    (h1 : k.ready_queue = []) (h2 : k.running_task = some t)
    (h3 : t.state = ProcessState.Running) :
    k.schedule.1 = k ∧ (k.handle_kernel_call KernelCall.Yield).kernel = k := by
  have hsched : k.schedule.1 = k := by
    obtain ⟨pid, q, r, tk⟩ := k
    cases h1
    cases h2
    obtain ⟨i, nm, st, pc, pr⟩ := t
    cases h3
    unfold Kernel.schedule
    simp
  refine ⟨hsched, ?_⟩
  unfold Kernel.handle_kernel_call
  simpa using hsched

/-- Witness for C10 at a concrete one-task kernel. -/
theorem schedule_sole_runner_fixpoint_witness :
    ({ next_pid := 2, ready_queue := [],
       running_task := some { id := 1, name := "A",
                              state := ProcessState.Running,
                              program_counter := 7, priority := 3 },
       ticks := 11 } : Kernel).ready_queue = [] ∧
    ({ next_pid := 2, ready_queue := [],
       running_task := some { id := 1, name := "A",
                              state := ProcessState.Running,
                              program_counter := 7, priority := 3 },
       ticks := 11 } : Kernel).schedule.1 =
      { next_pid := 2, ready_queue := [],
        running_task := some { id := 1, name := "A",
                               state := ProcessState.Running,
                               program_counter := 7, priority := 3 },
        ticks := 11 } :=
  ⟨rfl, (schedule_sole_runner_fixpoint _ _ rfl rfl rfl).1⟩

/-! ## C5 -/

/-- C5: with a task in the slot, `Block` detaches it, writes Blocked into
the detached record, and runs `schedule` on the emptied state within the
same dispatch, while `Exit` detaches it and writes Exited but performs no
schedule — the resulting state is exactly the old one with the slot
emptied (queue, pid counter and tick counter untouched). -/
theorem block_reschedules_exit_does_not (k : Kernel) (t : Process)
    (h : k.running_task = some t) :
    (k.handle_kernel_call KernelCall.Block).kernel
        = ({ k with running_task := none } : Kernel).schedule.1 ∧
    (k.handle_kernel_call KernelCall.Block).dropped
        = some { t with state := ProcessState.Blocked } ∧
    (k.handle_kernel_call KernelCall.Exit).kernel
        = { k with running_task := none } ∧
    (k.handle_kernel_call KernelCall.Exit).dropped
        = some { t with state := ProcessState.Exited } := by
  obtain ⟨pid, q, r, tk⟩ := k
  cases h
  unfold Kernel.handle_kernel_call
  simp

/-- Witness for C5 at a concrete two-task kernel. -/
theorem block_reschedules_exit_does_not_witness :
    ({ next_pid := 3,
       ready_queue := [{ id := 2, name := "B",
                         state := ProcessState.Ready,
                         program_counter := 0, priority := 1 }],
       running_task := some { id := 1, name := "A",
                              state := ProcessState.Running,
                              program_counter := 4, priority := 2 },
       ticks := 6 } : Kernel).running_task =
      some { id := 1, name := "A", state := ProcessState.Running,
             program_counter := 4, priority := 2 } ∧
    (({ next_pid := 3,
        ready_queue := [{ id := 2, name := "B",
                          state := ProcessState.Ready,
                          program_counter := 0, priority := 1 }],
        running_task := some { id := 1, name := "A",
                               state := ProcessState.Running,
                               program_counter := 4, priority := 2 },
        ticks := 6 } : Kernel).handle_kernel_call KernelCall.Exit).kernel =
      { next_pid := 3,
        ready_queue := [{ id := 2, name := "B",
                          state := ProcessState.Ready,
                          program_counter := 0, priority := 1 }],
        running_task := none, ticks := 6 } :=
  ⟨rfl, (block_reschedules_exit_does_not _ _ rfl).2.2.1⟩

/-! ## C2 -/

/-- Counterexample to C2 as stated: in a kernel whose slot is empty but
whose ready queue is non-empty, dispatching `Block` is not a no-op — the
`Block` arm calls `schedule` unconditionally, which dispatches the queue
head into the slot. -/
theorem block_on_empty_slot_changes_state :
    ({ next_pid := 2,
       ready_queue := [{ id := 1, name := "A",
                         state := ProcessState.Ready,
                         program_counter := 0, priority := 0 }],
       running_task := none, ticks := 0 } : Kernel).running_task = none ∧
    (({ next_pid := 2,
        ready_queue := [{ id := 1, name := "A",
                          state := ProcessState.Ready,
                          program_counter := 0, priority := 0 }],
        running_task := none, ticks := 0 } : Kernel).handle_kernel_call
          KernelCall.Block).kernel ≠
      { next_pid := 2,
        ready_queue := [{ id := 1, name := "A",
                          state := ProcessState.Ready,
                          program_counter := 0, priority := 0 }],
        running_task := none, ticks := 0 } := by
  refine ⟨rfl, ?_⟩
  intro hcontra
  have : (({ next_pid := 2,
             ready_queue := [{ id := 1, name := "A",
                               state := ProcessState.Ready,
                               program_counter := 0, priority := 0 }],
             running_task := none, ticks := 0 } : Kernel).handle_kernel_call
               KernelCall.Block).kernel.running_task = none :=
    congrArg Kernel.running_task hcontra
  simp [Kernel.handle_kernel_call, Kernel.schedule] at this

/-- C2 as amended: with an empty slot, `Exit` and `Print` leave the kernel
state unchanged; `Yield` and `Block` both invoke `schedule` on the
unchanged state (which is the idle no-op exactly when the ready queue is
also empty, and otherwise dispatches the queue head); none of the four can
crash, all four being total functions. -/
theorem dispatcher_empty_slot_behavior (k : Kernel)
    (h : k.running_task = none) :
    (k.handle_kernel_call KernelCall.Exit).kernel = k ∧
    (∀ m, (k.handle_kernel_call (KernelCall.Print m)).kernel = k) ∧
    (k.handle_kernel_call KernelCall.Yield).kernel = k.schedule.1 ∧
    (k.handle_kernel_call KernelCall.Block).kernel = k.schedule.1 ∧
    (k.ready_queue = [] → k.schedule.1 = k) := by
  obtain ⟨pid, q, r, tk⟩ := k
  cases h
  refine ⟨?_, ?_, ?_, ?_, ?_⟩
  · unfold Kernel.handle_kernel_call
    simp
  · intro m
    unfold Kernel.handle_kernel_call
    simp
  · unfold Kernel.handle_kernel_call
    simp
  · unfold Kernel.handle_kernel_call
    simp
  · intro hq
    cases hq
    unfold Kernel.schedule
    simp

/-- Witness for the amended C2 at a concrete empty-slot kernel. -/
theorem dispatcher_empty_slot_behavior_witness :
    ({ next_pid := 1, ready_queue := [], running_task := none,
       ticks := 9 } : Kernel).running_task = none ∧
    (({ next_pid := 1, ready_queue := [], running_task := none,
        ticks := 9 } : Kernel).handle_kernel_call KernelCall.Exit).kernel =
      { next_pid := 1, ready_queue := [], running_task := none, ticks := 9 } :=
  ⟨rfl, (dispatcher_empty_slot_behavior _ rfl).1⟩

/-! ## C3 and C4: the tick stepping function -/

theorem Kernel.schedule_fills_slot (k : Kernel)
    (h : k.running_task = none) (hq : k.ready_queue ≠ []) :
    k.schedule.1.running_task ≠ none := by
  obtain ⟨pid, q, r, tk⟩ := k
  cases h
  unfold Kernel.schedule
  cases q with
  | nil => exact absurd rfl hq
  | cons a l => simp

/-- C3: `tickWith` first increments the tick counter, tests divisibility by
3 on the already-incremented counter to decide the preemption `schedule`
(`tickPreempted` is that intermediate state), and only then — when the slot
is occupied — increments the occupant's program counter, queries the
task-logic collaborator at the task id and the incremented counter, and
feeds any returned call to the dispatcher on the updated state. -/
theorem tick_order_of_steps (logic : Nat → Nat → Option KernelCall)
    (k : Kernel) (t : Process)
    (h : k.tickPreempted.running_task = some t) :
    k.tickPreempted.ticks = k.ticks + 1 ∧
    ((k.ticks + 1) % 3 = 0 →
        k.tickPreempted = ({ k with ticks := k.ticks + 1 } : Kernel).schedule.1) ∧
    ((k.ticks + 1) % 3 ≠ 0 →
        k.tickPreempted = { k with ticks := k.ticks + 1 }) ∧
    (Kernel.tickWith logic k).kernel =
      (match logic t.id (t.program_counter + 1) with
       | some call =>
           (({ k.tickPreempted with
                running_task := some { t with program_counter := t.program_counter + 1 } }
              : Kernel).handle_kernel_call call).kernel
       | none =>
           { k.tickPreempted with
              running_task := some { t with program_counter := t.program_counter + 1 } }) ∧
    (Kernel.tickWith logic k).more = true := by
  refine ⟨?_, ?_, ?_, ?_⟩
  · unfold Kernel.tickPreempted
    split
    · exact Kernel.schedule_ticks _
    · rfl
  · intro hc
    unfold Kernel.tickPreempted
    rw [if_pos hc]
  · intro hc
    unfold Kernel.tickPreempted
    rw [if_neg hc]
  · unfold Kernel.tickWith
    unfold Kernel.tickPreempted at h ⊢
    by_cases h3 : (k.ticks + 1) % 3 = 0
    · simp only [if_pos h3] at h ⊢
      rw [h]
      rcases hl : logic t.id (t.program_counter + 1) with _ | call <;> simp [hl]
    · simp only [if_neg h3] at h ⊢
      rw [h]
      rcases hl : logic t.id (t.program_counter + 1) with _ | call <;> simp [hl]

/-- Witness for C3 at a concrete one-task kernel on a non-preemption
tick. -/
theorem tick_order_of_steps_witness :
    ({ next_pid := 2, ready_queue := [],
       running_task := some { id := 1, name := "A",
                              state := ProcessState.Running,
                              program_counter := 0, priority := 0 },
       ticks := 0 } : Kernel).tickPreempted.running_task =
      some { id := 1, name := "A", state := ProcessState.Running,
             program_counter := 0, priority := 0 } ∧
    (Kernel.tickWith Kernel.simulate_task_logic
      { next_pid := 2, ready_queue := [],
        running_task := some { id := 1, name := "A",
                               state := ProcessState.Running,
                               program_counter := 0, priority := 0 },
        ticks := 0 }).more = true :=
  ⟨rfl,
   (tick_order_of_steps Kernel.simulate_task_logic
     { next_pid := 2, ready_queue := [],
       running_task := some { id := 1, name := "A",
                              state := ProcessState.Running,
                              program_counter := 0, priority := 0 },
       ticks := 0 }
     { id := 1, name := "A", state := ProcessState.Running,
       program_counter := 0, priority := 0 } rfl).2.2.2.2⟩

/-- C4: `tickWith` reports no-more-work exactly when, right after the
counter increment and preemption check (`tickPreempted`), both the slot and
the ready queue are empty; when only the slot is empty it schedules
immediately — filling the slot — and continues; in all other cases it
continues. -/
theorem tick_no_more_work_iff (logic : Nat → Nat → Option KernelCall)
    (k : Kernel) :
    ((Kernel.tickWith logic k).more = false ↔
      (k.tickPreempted.running_task = none ∧
       k.tickPreempted.ready_queue = [])) ∧
    (k.tickPreempted.running_task = none → k.tickPreempted.ready_queue ≠ [] →
      (Kernel.tickWith logic k).kernel = k.tickPreempted.schedule.1 ∧
      (Kernel.tickWith logic k).more = true ∧
      (Kernel.tickWith logic k).kernel.running_task ≠ none) := by
  have hmain :
      ∀ kp, kp = k.tickPreempted →
        (((Kernel.tickWith logic k).more = false ↔
          (kp.running_task = none ∧ kp.ready_queue = [])) ∧
        (kp.running_task = none → kp.ready_queue ≠ [] →
          (Kernel.tickWith logic k).kernel = kp.schedule.1 ∧
          (Kernel.tickWith logic k).more = true ∧
          (Kernel.tickWith logic k).kernel.running_task ≠ none)) := by
    intro kp hkp
    unfold Kernel.tickWith
    unfold Kernel.tickPreempted at hkp
    by_cases h3 : (k.ticks + 1) % 3 = 0
    · simp only [if_pos h3] at hkp ⊢
      rw [← hkp]
      rcases hr : kp.running_task with _ | t
      · 
        rcases hq : kp.ready_queue with _ | ⟨a, l⟩
        · simp [hr, hq, List.isEmpty]
        · refine ⟨?_, ?_⟩
          · simp [hr, hq, List.isEmpty]
          · intro _ _
            refine ⟨by simp [hr, hq, List.isEmpty], by simp [hr, hq, List.isEmpty], ?_⟩
            have := Kernel.schedule_fills_slot kp hr (by simp [hq])
            simpa [hr, hq, List.isEmpty] using this
      · 
        refine ⟨?_, ?_⟩
        · rcases hl : logic t.id (t.program_counter + 1) with _ | call <;>
            simp [hl, hr]
        · intro hnone
          exact absurd hnone (by simp)
    · simp only [if_neg h3] at hkp ⊢
      subst hkp
      rcases hr : k.running_task with _ | t
      · 
        rcases hq : k.ready_queue with _ | ⟨a, l⟩
        · simp [hr, hq, List.isEmpty]
        · refine ⟨?_, ?_⟩
          · simp [hr, hq, List.isEmpty]
          · intro _ _
            refine ⟨by simp [hr, hq, List.isEmpty], by simp [hr, hq, List.isEmpty], ?_⟩
            have := Kernel.schedule_fills_slot
              { k with ticks := k.ticks + 1 } (by simp [hr]) (by simp [hq])
            simpa [hr, hq, List.isEmpty] using this
      · 
        refine ⟨?_, ?_⟩
        · rcases hl : logic t.id (t.program_counter + 1) with _ | call <;>
            simp [hl, hr]
        · intro hnone
          simp [hr] at hnone
  exact hmain k.tickPreempted rfl

/-- Witness for C4: a fresh kernel's first tick (empty slot, empty queue)
reports no more work. -/
theorem tick_no_more_work_iff_witness :
    (Kernel.tickWith Kernel.simulate_task_logic Kernel.new).more = false :=
  ((tick_no_more_work_iff Kernel.simulate_task_logic Kernel.new).1).2
    ⟨rfl, rfl⟩

/-! ## Live-id bookkeeping lemmas -/

theorem subperm_nodup {α : Type} {l1 l2 : List α}
    (h : l1 <+~ l2) (h2 : l2.Nodup) : l1.Nodup := by
  obtain ⟨l, hp, hs⟩ := h
  exact hp.nodup (hs.nodup h2)

theorem Kernel.liveIds_running_some (k : Kernel) (t : Process)
    (h : k.running_task = some t) :
    k.liveIds = t.id :: k.ready_queue.map Process.id := by
  unfold Kernel.liveIds Kernel.liveTasks
  rw [h]
  simp

theorem Kernel.liveIds_running_none (k : Kernel)
    (h : k.running_task = none) :
    k.liveIds = k.ready_queue.map Process.id := by
  unfold Kernel.liveIds Kernel.liveTasks
  rw [h]
  simp

theorem Kernel.schedule_liveIds_subperm (k : Kernel) :
    k.schedule.1.liveIds <+~ k.liveIds := by
  obtain ⟨pid, q, r, tk⟩ := k
  unfold Kernel.schedule
  cases r with
  | none =>
    cases q with
    | nil => simp [Kernel.liveIds, Kernel.liveTasks]
    | cons a l =>
      simp [Kernel.liveIds, Kernel.liveTasks]
      exact List.Subperm.refl _
  | some t =>
    by_cases hs : t.state = ProcessState.Running
    · cases q with
      | nil =>
        simp [hs, Kernel.liveIds, Kernel.liveTasks]
      | cons a l =>
        simp only [hs, if_true, Kernel.liveIds, Kernel.liveTasks]
        simp only [List.cons_append, List.map_append, List.map_cons]
        refine List.Perm.subperm ?_
        calc a.id :: ([] ++ (l.map Process.id ++ [t.id]))
            ~ a.id :: (t.id :: l.map Process.id) := by
              refine List.Perm.cons _ ?_
              simp
          _ ~ t.id :: a.id :: l.map Process.id := List.Perm.swap _ _ _
    · cases q with
      | nil =>
        simp [hs, Kernel.liveIds, Kernel.liveTasks]
      | cons a l =>
        have hsub : (List.map Process.id (a :: l)) <+~
            (t.id :: List.map Process.id (a :: l)) :=
          (List.sublist_cons_self _ _).subperm
        simpa [hs, Kernel.liveIds, Kernel.liveTasks] using hsub

theorem Kernel.handle_next_pid (k : Kernel) (c : KernelCall) :
    (k.handle_kernel_call c).kernel.next_pid = k.next_pid := by
  cases c with
  | Yield =>
    simpa [Kernel.handle_kernel_call] using Kernel.schedule_next_pid k
  | Print msg =>
    rcases hr : k.running_task with _ | t <;>
      simp [Kernel.handle_kernel_call, hr]
  | Exit =>
    rcases hr : k.running_task with _ | t <;>
      simp [Kernel.handle_kernel_call, hr]
  | Block =>
    rcases hr : k.running_task with _ | t <;>
      simp [Kernel.handle_kernel_call, hr, Kernel.schedule_next_pid]

theorem Kernel.handle_liveIds_subperm (k : Kernel) (c : KernelCall) :
    (k.handle_kernel_call c).kernel.liveIds <+~ k.liveIds := by
  cases c with
  | Yield =>
    simpa [Kernel.handle_kernel_call] using Kernel.schedule_liveIds_subperm k
  | Print msg =>
    rcases hr : k.running_task with _ | t <;>
      simp [Kernel.handle_kernel_call, hr] <;>
      exact List.Subperm.refl _
  | Exit =>
    rcases hr : k.running_task with _ | t
    · simp [Kernel.handle_kernel_call, hr]
      exact List.Subperm.refl _
    · have hlive := Kernel.liveIds_running_some k t hr
      have hlive2 : (({ k with running_task := none } : Kernel)).liveIds =
          k.ready_queue.map Process.id := Kernel.liveIds_running_none _ rfl
      simp only [Kernel.handle_kernel_call, hr]
      rw [hlive2, hlive]
      exact (List.sublist_cons_self _ _).subperm
  | Block =>
    rcases hr : k.running_task with _ | t
    · simpa [Kernel.handle_kernel_call, hr] using Kernel.schedule_liveIds_subperm k
    · have hlive := Kernel.liveIds_running_some k t hr
      have hlive2 : (({ k with running_task := none } : Kernel)).liveIds =
          k.ready_queue.map Process.id := Kernel.liveIds_running_none _ rfl
      have hstep : (({ k with running_task := none } : Kernel)).schedule.1.liveIds <+~
          (({ k with running_task := none } : Kernel)).liveIds :=
        Kernel.schedule_liveIds_subperm _
      rw [hlive2] at hstep
      simp only [Kernel.handle_kernel_call, hr]
      refine hstep.trans ?_
      rw [hlive]
      exact (List.sublist_cons_self _ _).subperm

theorem Kernel.spawn_liveIds (k : Kernel) (name : String) (priority : Nat) :
    (k.spawn_task name priority).1.liveIds =
      k.liveIds ++ [k.next_pid] := by
  obtain ⟨pid, q, r, tk⟩ := k
  cases r <;>
    simp [Kernel.spawn_task, Kernel.liveIds, Kernel.liveTasks, Process.new]

theorem Kernel.spawn_next_pid (k : Kernel) (name : String) (priority : Nat) :
    (k.spawn_task name priority).1.next_pid = k.next_pid + 1 := by
  simp [Kernel.spawn_task]

theorem Kernel.tickWith_next_pid (logic : Nat → Nat → Option KernelCall)
    (k : Kernel) :
    (Kernel.tickWith logic k).kernel.next_pid = k.next_pid := by
  have hmain : ∀ kp, kp = k.tickPreempted →
      ((Kernel.tickWith logic k).kernel.next_pid = kp.next_pid ∧
        kp.next_pid = k.next_pid) := by
    intro kp hkp
    have hpid : kp.next_pid = k.next_pid := by
      rw [hkp]
      unfold Kernel.tickPreempted
      split
      · exact Kernel.schedule_next_pid _
      · rfl
    refine ⟨?_, hpid⟩
    unfold Kernel.tickWith
    unfold Kernel.tickPreempted at hkp
    by_cases h3 : (k.ticks + 1) % 3 = 0
    · simp only [if_pos h3] at hkp ⊢
      rw [← hkp]
      rcases hr : kp.running_task with _ | t
      · rcases hq : kp.ready_queue with _ | ⟨a, l⟩ <;>
          simp [hr, hq, List.isEmpty, Kernel.schedule_next_pid]
      · rcases hl : logic t.id (t.program_counter + 1) with _ | call
        · simp [hl]
        · simp only [hl]
          simpa using Kernel.handle_next_pid
            { kp with
                running_task := some { t with program_counter := t.program_counter + 1 } } call
    · simp only [if_neg h3] at hkp ⊢
      subst hkp
      rcases hr : k.running_task with _ | t
      · rcases hq : k.ready_queue with _ | ⟨a, l⟩ <;>
          simp [hr, hq, List.isEmpty, Kernel.schedule_next_pid]
      · rcases hl : logic t.id (t.program_counter + 1) with _ | call
        · simp [hr, hl]
        · simp only [hr, hl]
          simpa using Kernel.handle_next_pid
            { k with
                running_task :=
                  some { t with program_counter := t.program_counter + 1 }
                ticks := k.ticks + 1 } call
  have := hmain k.tickPreempted rfl
  rw [this.1, this.2]

theorem Kernel.tickPreempted_liveIds_subperm (k : Kernel) :
    k.tickPreempted.liveIds <+~ k.liveIds := by
  unfold Kernel.tickPreempted
  split
  · exact Kernel.schedule_liveIds_subperm _
  · exact List.Subperm.refl _

theorem Kernel.tickWith_liveIds_subperm (logic : Nat → Nat → Option KernelCall)
    (k : Kernel) :
    (Kernel.tickWith logic k).kernel.liveIds <+~ k.liveIds := by
  have hmain : ∀ kp, kp = k.tickPreempted →
      (Kernel.tickWith logic k).kernel.liveIds <+~ kp.liveIds := by
    intro kp hkp
    unfold Kernel.tickWith
    unfold Kernel.tickPreempted at hkp
    by_cases h3 : (k.ticks + 1) % 3 = 0
    · simp only [if_pos h3] at hkp ⊢
      rw [← hkp]
      rcases hr : kp.running_task with _ | t
      · rcases hq : kp.ready_queue with _ | ⟨a, l⟩
        · simp [hr, hq, List.isEmpty]
          exact List.Subperm.refl _
        · simp [hr, hq, List.isEmpty]
          exact Kernel.schedule_liveIds_subperm kp
      · have hlive := Kernel.liveIds_running_some kp t hr
        have hupd : (({ kp with
            running_task := some { t with program_counter := t.program_counter + 1 } }
              : Kernel)).liveIds = t.id :: kp.ready_queue.map Process.id :=
          Kernel.liveIds_running_some _
            { t with program_counter := t.program_counter + 1 } rfl
        rcases hl : logic t.id (t.program_counter + 1) with _ | call
        · simp only [hr, hl]
          rw [hupd, hlive]
        · simp only [hr, hl]
          have hh := Kernel.handle_liveIds_subperm
            { kp with
                running_task := some { t with program_counter := t.program_counter + 1 } }
            call
          rw [hupd] at hh
          rw [hlive]
          exact hh
    · simp only [if_neg h3] at hkp ⊢
      subst hkp
      rcases hr : k.running_task with _ | t
      · rcases hq : k.ready_queue with _ | ⟨a, l⟩
        · simp [hr, hq, List.isEmpty]
          exact List.Subperm.refl _
        · simp [hr, hq, List.isEmpty]
          simpa using Kernel.schedule_liveIds_subperm
            { next_pid := k.next_pid, ready_queue := a :: l,
              running_task := none, ticks := k.ticks + 1 }
      · have hlive := Kernel.liveIds_running_some k t hr
        have hupd : (({ k with
            running_task := some { t with program_counter := t.program_counter + 1 }
            ticks := k.ticks + 1 } : Kernel)).liveIds =
              t.id :: k.ready_queue.map Process.id :=
          Kernel.liveIds_running_some _
            { t with program_counter := t.program_counter + 1 } rfl
        rcases hl : logic t.id (t.program_counter + 1) with _ | call
        · simp only [hr, hl]
          rw [hupd]
          have hback : (({ k with running_task := some t, ticks := k.ticks + 1 }
              : Kernel)).liveIds = t.id :: k.ready_queue.map Process.id :=
            Kernel.liveIds_running_some _ t rfl
          rw [hback]
        · simp only [hr, hl]
          have hh := Kernel.handle_liveIds_subperm
            { k with
                running_task := some { t with program_counter := t.program_counter + 1 }
                ticks := k.ticks + 1 }
            call
          rw [hupd] at hh
          have hback : (({ k with running_task := some t, ticks := k.ticks + 1 }
              : Kernel)).liveIds = t.id :: k.ready_queue.map Process.id :=
            Kernel.liveIds_running_some _ t rfl
          rw [hback]
          exact hh
  exact (hmain k.tickPreempted rfl).trans (Kernel.tickPreempted_liveIds_subperm k)

/-! ## State-discipline preservation -/

theorem Kernel.stateInv_schedule (k : Kernel) (h : k.StateInv) :
    k.schedule.1.StateInv := by
  have h2 := h.2
  obtain ⟨pid, q, r, tk⟩ := k
  unfold Kernel.StateInv at *
  unfold Kernel.schedule
  cases r with
  | none =>
    cases q with
    | nil =>
      exact ⟨by simp, by simp⟩
    | cons a l =>
      refine ⟨?_, ?_⟩
      · intro t ht
        simp at ht
        simp [← ht]
      · intro t ht
        simp at ht
        exact h2 t (by simp [ht])
  | some t0 =>
    by_cases hs : t0.state = ProcessState.Running
    · cases q with
      | nil =>
        refine ⟨?_, ?_⟩
        · intro t ht
          simp [hs] at ht
          simp [← ht]
        · intro t ht
          simp [hs] at ht
      | cons a l =>
        refine ⟨?_, ?_⟩
        · intro t ht
          simp [hs] at ht
          simp [← ht]
        · intro t ht
          simp [hs] at ht
          rcases ht with ht | ht
          · exact h2 t (by simp [ht])
          · simp [ht]
    · cases q with
      | nil =>
        refine ⟨?_, ?_⟩
        · intro t ht
          simp [hs] at ht
        · intro t ht
          simp [hs] at ht
      | cons a l =>
        refine ⟨?_, ?_⟩
        · intro t ht
          simp [hs] at ht
          simp [← ht]
        · intro t ht
          simp [hs] at ht
          exact h2 t (by simp [ht])

theorem Kernel.stateInv_spawn (k : Kernel) (name : String) (priority : Nat)
    (h : k.StateInv) : (k.spawn_task name priority).1.StateInv := by
  unfold Kernel.StateInv at *
  refine ⟨?_, ?_⟩
  · intro t ht
    simp [Kernel.spawn_task] at ht
    exact h.1 t ht
  · intro t ht
    simp [Kernel.spawn_task] at ht
    rcases ht with ht | ht
    · exact h.2 t ht
    · simp [ht, Process.new]

theorem Kernel.stateInv_handle (k : Kernel) (c : KernelCall)
    (h : k.StateInv) : (k.handle_kernel_call c).kernel.StateInv := by
  cases c with
  | Yield =>
    simpa [Kernel.handle_kernel_call] using Kernel.stateInv_schedule k h
  | Print msg =>
    rcases hr : k.running_task with _ | t <;>
      simpa [Kernel.handle_kernel_call, hr] using h
  | Exit =>
    rcases hr : k.running_task with _ | t
    · simpa [Kernel.handle_kernel_call, hr] using h
    · unfold Kernel.StateInv at *
      refine ⟨?_, ?_⟩
      · intro u hu
        simp [Kernel.handle_kernel_call, hr] at hu
      · intro u hu
        simp [Kernel.handle_kernel_call, hr] at hu
        exact h.2 u hu
  | Block =>
    rcases hr : k.running_task with _ | t
    · simpa [Kernel.handle_kernel_call, hr] using Kernel.stateInv_schedule k h
    · have hinv : (({ k with running_task := none } : Kernel)).StateInv := by
        unfold Kernel.StateInv
        exact ⟨by simp, h.2⟩
      simpa [Kernel.handle_kernel_call, hr] using
        Kernel.stateInv_schedule { k with running_task := none } hinv

theorem Kernel.stateInv_tickPreempted (k : Kernel) (h : k.StateInv) :
    k.tickPreempted.StateInv := by
  unfold Kernel.tickPreempted
  split
  · exact Kernel.stateInv_schedule _ ⟨h.1, h.2⟩
  · exact ⟨h.1, h.2⟩

theorem Kernel.stateInv_tickWith (logic : Nat → Nat → Option KernelCall)
    (k : Kernel) (h : k.StateInv) :
    (Kernel.tickWith logic k).kernel.StateInv := by
  have hp : k.tickPreempted.StateInv := Kernel.stateInv_tickPreempted k h
  have hmain : ∀ kp, kp = k.tickPreempted → kp.StateInv →
      (Kernel.tickWith logic k).kernel.StateInv := by
    intro kp hkp hkinv
    unfold Kernel.tickWith
    unfold Kernel.tickPreempted at hkp
    by_cases h3 : (k.ticks + 1) % 3 = 0
    · simp only [if_pos h3] at hkp ⊢
      rw [← hkp]
      rcases hr : kp.running_task with _ | t
      · rcases hq : kp.ready_queue with _ | ⟨a, l⟩
        · simpa [hr, hq, List.isEmpty] using hkinv
        · simp [hr, hq, List.isEmpty]
          exact Kernel.stateInv_schedule kp hkinv
      · have hrun : t.state = ProcessState.Running := hkinv.1 t hr
        have hupd : (({ kp with
            running_task := some { t with program_counter := t.program_counter + 1 } }
              : Kernel)).StateInv := by
          unfold Kernel.StateInv
          refine ⟨?_, hkinv.2⟩
          intro u hu
          simp at hu
          simp [← hu, hrun]
        rcases hl : logic t.id (t.program_counter + 1) with _ | call
        · simpa [hr, hl] using hupd
        · simp only [hr, hl]
          simpa using Kernel.stateInv_handle _ call hupd
    · simp only [if_neg h3] at hkp ⊢
      subst hkp
      rcases hr : k.running_task with _ | t
      · rcases hq : k.ready_queue with _ | ⟨a, l⟩
        · simpa [hr, hq, List.isEmpty] using hkinv
        · simp [hr, hq, List.isEmpty]
          have hkinv2 : (({ next_pid := k.next_pid,
                            ready_queue := a :: l,
                            running_task := none,
                            ticks := k.ticks + 1 } : Kernel)).StateInv := by
            unfold Kernel.StateInv at *
            refine ⟨by simp, ?_⟩
            intro u hu
            exact hkinv.2 u (by simpa [hq] using hu)
          simpa using Kernel.stateInv_schedule _ hkinv2
      · have hrun : t.state = ProcessState.Running := hkinv.1 t hr
        have hupd : (({ k with
            running_task := some { t with program_counter := t.program_counter + 1 }
            ticks := k.ticks + 1 } : Kernel)).StateInv := by
          unfold Kernel.StateInv at *
          refine ⟨?_, hkinv.2⟩
          intro u hu
          simp at hu
          simp [← hu, hrun]
        rcases hl : logic t.id (t.program_counter + 1) with _ | call
        · simpa [hr, hl] using hupd
        · simp only [hr, hl]
          simpa using Kernel.stateInv_handle _ call hupd
  exact hmain k.tickPreempted rfl hp

/-! ## Id-discipline preservation and the inductive invariant -/

theorem Kernel.idInv_of_subperm {k k2 : Kernel}
    (hsub : k2.liveIds <+~ k.liveIds) (hpid : k2.next_pid = k.next_pid)
    (h : k.IdInv) : k2.IdInv := by
  unfold Kernel.IdInv at *
  refine ⟨subperm_nodup hsub h.1, ?_⟩
  intro i hi
  rw [hpid]
  exact h.2 i (hsub.subset hi)

theorem Kernel.idInv_spawn (k : Kernel) (name : String) (priority : Nat)
    (h : k.IdInv) : (k.spawn_task name priority).1.IdInv := by
  unfold Kernel.IdInv at *
  refine ⟨?_, ?_⟩
  · rw [Kernel.spawn_liveIds]
    refine List.Nodup.append h.1 (List.nodup_singleton _) ?_
    intro i hi hmem
    simp at hmem
    rw [hmem] at hi
    exact absurd (h.2 _ hi) (lt_irrefl _)
  · intro i hi
    rw [Kernel.spawn_liveIds] at hi
    rw [Kernel.spawn_next_pid]
    simp at hi
    rcases hi with hi | hi
    · exact Nat.lt_succ_of_lt (h.2 i hi)
    · simp [hi]

theorem Kernel.inv_step {k k2 : Kernel} (hs : Kernel.Step k k2)
    (h : k.Inv) : k2.Inv := by
  obtain ⟨hst, hid⟩ := h
  cases hs with
  | spawn name priority =>
    exact ⟨Kernel.stateInv_spawn k name priority hst,
           Kernel.idInv_spawn k name priority hid⟩
  | sched =>
    exact ⟨Kernel.stateInv_schedule k hst,
           Kernel.idInv_of_subperm (Kernel.schedule_liveIds_subperm k)
             (Kernel.schedule_next_pid k) hid⟩
  | call c =>
    exact ⟨Kernel.stateInv_handle k c hst,
           Kernel.idInv_of_subperm (Kernel.handle_liveIds_subperm k c)
             (Kernel.handle_next_pid k c) hid⟩
  | tick logic =>
    exact ⟨Kernel.stateInv_tickWith logic k hst,
           Kernel.idInv_of_subperm (Kernel.tickWith_liveIds_subperm logic k)
             (Kernel.tickWith_next_pid logic k) hid⟩

theorem Kernel.inv_new : Kernel.new.Inv := by
  unfold Kernel.Inv Kernel.StateInv Kernel.IdInv
  refine ⟨⟨?_, ?_⟩, ?_, ?_⟩
  · intro t ht
    simp [Kernel.new] at ht
  · intro t ht
    simp [Kernel.new] at ht
  · simp [Kernel.liveIds, Kernel.liveTasks, Kernel.new]
  · intro i hi
    simp [Kernel.liveIds, Kernel.liveTasks, Kernel.new] at hi

theorem Kernel.inv_reachable {k : Kernel} (h : k.Reachable) : k.Inv := by
  induction h with
  | init => exact Kernel.inv_new
  | step hr hs ih => exact Kernel.inv_step hs ih

/-! ## C6 -/

/-- C6: in every kernel state reachable from a fresh kernel by spawns,
schedules, ticks (with any task-logic collaborator) and dispatcher calls,
the slot occupant — when present — is in state Running and every queued
task is in state Ready. -/
theorem reachable_state_discipline (k : Kernel) (h : k.Reachable) :
    (∀ t, k.running_task = some t → t.state = ProcessState.Running) ∧
    (∀ t ∈ k.ready_queue, t.state = ProcessState.Ready) :=
  (Kernel.inv_reachable h).1

/-- Witness for C6: after one spawn and one schedule the reachable state
holds task 1 Running in the slot. -/
theorem reachable_state_discipline_witness :
    Kernel.Reachable (Kernel.new.spawn_task "Init_Task" 10).1.schedule.1 ∧
    ({ id := 1, name := "Init_Task", state := ProcessState.Running,
       program_counter := 0, priority := 10 } : Process).state =
      ProcessState.Running :=
  ⟨Kernel.Reachable.step
      (Kernel.Reachable.step Kernel.Reachable.init
        (Kernel.Step.spawn "Init_Task" 10)) Kernel.Step.sched,
   (reachable_state_discipline (Kernel.new.spawn_task "Init_Task" 10).1.schedule.1
      (Kernel.Reachable.step
        (Kernel.Reachable.step Kernel.Reachable.init
          (Kernel.Step.spawn "Init_Task" 10)) Kernel.Step.sched)).1
     { id := 1, name := "Init_Task", state := ProcessState.Running,
       program_counter := 0, priority := 10 } rfl⟩

/-! ## C7 -/

/-- C7: in every reachable kernel state the list of live ids — the slot
occupant's id (if any) followed by the queued ids — has no duplicates: no
id is both in the slot and in the queue, and no id occurs twice in the
queue. -/
theorem reachable_ids_nodup (k : Kernel) (h : k.Reachable) :
    k.liveIds.Nodup :=
  (Kernel.inv_reachable h).2.1

/-- Witness for C7 at a reachable two-task state. -/
theorem reachable_ids_nodup_witness :
    Kernel.Reachable ((Kernel.new.spawn_task "Init_Task" 10).1.spawn_task
      "WebApp_Worker" 5).1 ∧
    ((Kernel.new.spawn_task "Init_Task" 10).1.spawn_task
      "WebApp_Worker" 5).1.liveIds.Nodup :=
  ⟨Kernel.Reachable.step
      (Kernel.Reachable.step Kernel.Reachable.init
        (Kernel.Step.spawn "Init_Task" 10)) (Kernel.Step.spawn "WebApp_Worker" 5),
   reachable_ids_nodup _
     (Kernel.Reachable.step
       (Kernel.Reachable.step Kernel.Reachable.init
         (Kernel.Step.spawn "Init_Task" 10))
       (Kernel.Step.spawn "WebApp_Worker" 5))⟩

/-! ## C8 -/

theorem Kernel.dead_stays_dead_step {k k2 : Kernel} (i : Nat)
    (hs : Kernel.Step k k2) (hnot : i ∉ k.liveIds) (hlt : i < k.next_pid) :
    i ∉ k2.liveIds ∧ i < k2.next_pid := by
  cases hs with
  | spawn name priority =>
    refine ⟨?_, ?_⟩
    · rw [Kernel.spawn_liveIds]
      simp
      exact ⟨fun hm => absurd hm hnot, fun he => absurd (he ▸ hlt) (lt_irrefl _)⟩
    · rw [Kernel.spawn_next_pid]
      exact Nat.lt_succ_of_lt hlt
  | sched =>
    exact ⟨fun hm => hnot ((Kernel.schedule_liveIds_subperm k).subset hm),
           by rwa [Kernel.schedule_next_pid]⟩
  | call c =>
    exact ⟨fun hm => hnot ((Kernel.handle_liveIds_subperm k c).subset hm),
           by rwa [Kernel.handle_next_pid]⟩
  | tick logic =>
    exact ⟨fun hm => hnot ((Kernel.tickWith_liveIds_subperm logic k).subset hm),
           by rwa [Kernel.tickWith_next_pid]⟩

theorem Kernel.dead_stays_dead {k k2 : Kernel} (i : Nat)
    (hsteps : Relation.ReflTransGen Kernel.Step k k2)
    (hnot : i ∉ k.liveIds) (hlt : i < k.next_pid) :
    i ∉ k2.liveIds ∧ i < k2.next_pid := by
  induction hsteps with
  | refl => exact ⟨hnot, hlt⟩
  | tail hsteps hstep ih => exact Kernel.dead_stays_dead_step i hstep ih.1 ih.2

/-- C8: from any reachable state whose slot holds task `t`, after a
terminating `Exit` or `Block` dispatch, `t.id` is absent from the live ids
(slot and queue) of every state reachable by any further sequence of
operations. -/
theorem exited_blocked_never_return (k : Kernel) (t : Process) (c : KernelCall)
    (hreach : k.Reachable) (hrun : k.running_task = some t)
    (hc : c = KernelCall.Exit ∨ c = KernelCall.Block) (k2 : Kernel)
    (hsteps : Relation.ReflTransGen Kernel.Step
      (k.handle_kernel_call c).kernel k2) :
    t.id ∉ k2.liveIds := by
  have hinv := Kernel.inv_reachable hreach
  have hnd : k.liveIds.Nodup := hinv.2.1
  have hlt : t.id < k.next_pid := by
    refine hinv.2.2 t.id ?_
    rw [Kernel.liveIds_running_some k t hrun]
    simp
  have hnotq : t.id ∉ k.ready_queue.map Process.id := by
    rw [Kernel.liveIds_running_some k t hrun] at hnd
    exact (List.nodup_cons.mp hnd).1
  have hbase : t.id ∉ (k.handle_kernel_call c).kernel.liveIds := by
    rcases hc with rfl | rfl
    · have hkexit : (k.handle_kernel_call KernelCall.Exit).kernel =
          { k with running_task := none } := by
        simp [Kernel.handle_kernel_call, hrun]
      rw [hkexit, Kernel.liveIds_running_none _ rfl]
      exact hnotq
    · have hkblock : (k.handle_kernel_call KernelCall.Block).kernel =
          ({ k with running_task := none } : Kernel).schedule.1 := by
        simp [Kernel.handle_kernel_call, hrun]
      rw [hkblock]
      intro hmem
      have hmem2 := (Kernel.schedule_liveIds_subperm _).subset hmem
      rw [Kernel.liveIds_running_none _ rfl] at hmem2
      exact hnotq hmem2
  have hpid : t.id < (k.handle_kernel_call c).kernel.next_pid := by
    rw [Kernel.handle_next_pid]
    exact hlt
  exact (Kernel.dead_stays_dead t.id hsteps hbase hpid).1

/-- Witness for C8: task 1 exits from a reachable one-task state; its id is
gone from the resulting live ids (empty further step sequence). -/
theorem exited_blocked_never_return_witness :
    Kernel.Reachable (Kernel.new.spawn_task "Init_Task" 10).1.schedule.1 ∧
    ({ id := 1, name := "Init_Task", state := ProcessState.Running,
       program_counter := 0, priority := 10 } : Process).id ∉
      (((Kernel.new.spawn_task "Init_Task" 10).1.schedule.1).handle_kernel_call
        KernelCall.Exit).kernel.liveIds :=
  ⟨Kernel.Reachable.step
      (Kernel.Reachable.step Kernel.Reachable.init
        (Kernel.Step.spawn "Init_Task" 10)) Kernel.Step.sched,
   exited_blocked_never_return (Kernel.new.spawn_task "Init_Task" 10).1.schedule.1
     { id := 1, name := "Init_Task", state := ProcessState.Running,
       program_counter := 0, priority := 10 }
     KernelCall.Exit
     (Kernel.Reachable.step
       (Kernel.Reachable.step Kernel.Reachable.init
         (Kernel.Step.spawn "Init_Task" 10)) Kernel.Step.sched)
     rfl (Or.inl rfl) _ Relation.ReflTransGen.refl⟩
